import Mathlib

/-!
Verification of the waveform-rendering core of the wavesurfer.js fork
(src/drawer.canvasentry.js, src/util/absMax.js, src/util/frame.js min,
src/util/style.js).

The embedding mirrors the JavaScript source.  Numbers that can become
non-finite through JavaScript arithmetic (division by zero, 0 * Infinity)
are modelled by the type `JSNum` below, a rational number extended with
signed infinities and NaN, with the IEEE-754 double semantics JavaScript
uses for the operations the code performs.  Canvas 2D operations are
modelled as an operation trace; per the HTML canvas specification, path
commands whose arguments are non-finite are ignored, and fillRect with a
zero width or height paints nothing.
-/

/-- A JavaScript number: a finite rational, a signed infinity, or NaN. -/
inductive JSNum where
  | num (q : ℚ)
  | inf (pos : Bool)
  | nan
deriving DecidableEq, Repr

/-- JavaScript Math.round on a finite value: floor(q + 1/2). -/
def jround (q : ℚ) : ℤ := ⌊q + 1/2⌋

namespace JSNum

/-- JavaScript addition. -/
def jsAdd : JSNum → JSNum → JSNum
  | nan, _ => nan
  | _, nan => nan
  | num a, num b => num (a + b)
  | num _, inf p => inf p
  | inf p, num _ => inf p
  | inf p, inf q => if p = q then inf p else nan

/-- JavaScript unary minus. -/
def jsNeg : JSNum → JSNum
  | nan => nan
  | num a => num (-a)
  | inf p => inf (!p)

/-- JavaScript subtraction. -/
def jsSub (a b : JSNum) : JSNum := jsAdd a (jsNeg b)

/-- JavaScript multiplication (0 * Infinity = NaN). -/
def jsMul : JSNum → JSNum → JSNum
  | nan, _ => nan
  | _, nan => nan
  | num a, num b => num (a * b)
  | num a, inf p => if a = 0 then nan else if 0 < a then inf p else inf (!p)
  | inf p, num b => if b = 0 then nan else if 0 < b then inf p else inf (!p)
  | inf p, inf q => inf (p == q)

/-- JavaScript division (x/0 = signed Infinity for x ≠ 0, 0/0 = NaN;
the rational zero plays the role of +0). -/
def jsDiv : JSNum → JSNum → JSNum
  | nan, _ => nan
  | _, nan => nan
  | num a, num b =>
      if b = 0 then (if a = 0 then nan else if 0 < a then inf true else inf false)
      else num (a / b)
  | num _, inf _ => num 0
  | inf p, num b => if b = 0 then inf p else if 0 < b then inf p else inf (!p)
  | inf _, inf _ => nan

/-- JavaScript Math.round lifted to JSNum. -/
def jsRound : JSNum → JSNum
  | nan => nan
  | inf p => inf p
  | num q => num (jround q)

/-- The JavaScript `<` comparison on numbers (false whenever NaN is involved). -/
def jsLtB : JSNum → JSNum → Bool
  | nan, _ => false
  | _, nan => false
  | num a, num b => decide (a < b)
  | num _, inf p => p
  | inf p, num _ => !p
  | inf p, inf q => !p && q

/-- JavaScript truthiness of a number: 0 and NaN are falsy, everything else
(truthy includes the infinities). -/
def jsTruthy : JSNum → Bool
  | nan => false
  | num q => decide (q ≠ 0)
  | inf _ => true

/-- Whether the value is a finite number. -/
def isFinite : JSNum → Bool
  | num _ => true
  | _ => false

end JSNum

open JSNum

example : jsMul (num 0) (inf true) = nan := by decide
example : jsDiv (num 100) (num 0) = inf true := by decide
example : jsDiv (num 0) (num 0) = nan := by decide
example : jsAdd nan (num 3) = nan := by decide

/-- A color argument: either a single color string or an ordered list of
color strings (the two dynamic shapes getFillStyle accepts). -/
inductive WaveColor where
  | str (s : String)
  | arr (cs : List String)
deriving DecidableEq, Repr

/-- A resolved canvas fill style: a plain color string, or a linear
gradient (createLinearGradient coordinates plus addColorStop stops). -/
inductive FillStyle where
  | color (s : String)
  | gradient (x0 y0 x1 y1 : ℚ) (stops : List (ℚ × String))
deriving DecidableEq, Repr

/-- The stops produced by color.forEach((value, index) =>
waveGradient.addColorStop(index / color.length, value)), with `idx` the
index of the first remaining element and `len` the full list length. -/
def addStops (len : ℕ) (idx : ℕ) : List String → List (ℚ × String)
  | [] => []
  | c :: cs => ((idx : ℚ) / (len : ℚ), c) :: addStops len (idx + 1) cs

/-- getFillStyle (drawer.canvasentry.js lines 176-185): a string color is
returned as is; an array yields createLinearGradient(0, 0, 0,
ctx.canvas.height) with one stop per color at offset index/length. -/
def getFillStyle (canvasHeight : ℚ) (color : WaveColor) : FillStyle :=
  match color with
  | .str s => .color s
  | .arr cs => .gradient 0 0 0 canvasHeight (addStops cs.length 0 cs)

/-- A canvas element: its pixel buffer dimensions. -/
structure Canvas where
  width : ℚ
  height : ℚ
deriving DecidableEq, Repr

/-- One recorded 2D-context operation.  `pathPoint` stands for a
moveTo/lineTo whose (finite) coordinates were accepted into the current
path; non-finite coordinates are dropped by the canvas and hence never
recorded (HTML canvas: path commands with non-finite arguments return
without effect). -/
inductive CtxOp where
  | clearRect (x y w h : ℚ)
  | fillRect (x y w h : ℚ)
  | beginPath
  | pathPoint (x y : ℚ)
  | moveTo (x y : ℚ)
  | lineTo (x y : ℚ)
  | quadraticCurveTo (cx cy x y : ℚ)
  | closePath
  | fill
deriving DecidableEq, Repr

/-- A 2D rendering context: its backing canvas, current fill style and the
trace of operations executed on it. -/
structure Ctx where
  canvas : Canvas
  fillStyle : FillStyle
  ops : List CtxOp
deriving DecidableEq, Repr

/-- A CanvasEntry: wave and (optional) progress canvases and contexts, the
fractional span `start`..`end_`, the externally assigned
`hasProgressCanvas` flag and `halfPixel` constant.  A context is `none`
until initWave/initProgress attaches the corresponding element. -/
structure CanvasEntry where
  wave : Option Canvas
  waveCtx : Option Ctx
  progress : Option Canvas
  progressCtx : Option Ctx
  start : ℚ
  end_ : ℚ
  hasProgressCanvas : Bool
  halfPixel : ℚ
deriving DecidableEq, Repr

/-- Whether an Except computation succeeded. -/
def isOkB {α : Type} (x : Except String α) : Bool :=
  match x with
  | .ok _ => true
  | .error _ => false

/-- clearWave (drawer.canvasentry.js lines 128-146): clearRect over the
full wave canvas, and over the progress canvas when hasProgressCanvas.
The source dereferences this.waveCtx without a null check, so a tile whose
context was never attached raises a TypeError (modelled as `.error`). -/
def clearWave (e : CanvasEntry) : Except String CanvasEntry :=
  match e.waveCtx with
  | none => .error "TypeError: null waveCtx in clearWave"
  | some c =>
    let c2 : Ctx :=
      { c with ops := c.ops ++ [CtxOp.clearRect 0 0 c.canvas.width c.canvas.height] }
    if e.hasProgressCanvas then
      match e.progressCtx with
      | none => .error "TypeError: null progressCtx in clearWave"
      | some p =>
        .ok { e with waveCtx := some c2,
                     progressCtx := some { p with ops := p.ops ++ [CtxOp.clearRect 0 0 p.canvas.width p.canvas.height] } }
    else
      .ok { e with waveCtx := some c2 }

/-- setFillStyles (drawer.canvasentry.js lines 155-161): assigns
this.waveCtx.fillStyle (and progressCtx.fillStyle when hasProgressCanvas).
The source neither null-checks the contexts nor guards the property
assignment, so an unattached context raises a TypeError. -/
def setFillStyles (e : CanvasEntry) (waveColor progressColor : WaveColor) :
    Except String CanvasEntry :=
  match e.waveCtx with
  | none => .error "TypeError: null waveCtx in setFillStyles"
  | some c =>
    let c2 : Ctx := { c with fillStyle := getFillStyle c.canvas.height waveColor }
    if e.hasProgressCanvas then
      match e.progressCtx with
      | none => .error "TypeError: null progressCtx in setFillStyles"
      | some p =>
        .ok { e with waveCtx := some c2,
                     progressCtx := some { p with fillStyle := getFillStyle p.canvas.height progressColor } }
    else
      .ok { e with waveCtx := some c2 }

/-- drawRoundedRect (drawer.canvasentry.js lines 266-293) as the list of
context operations it performs: nothing when height = 0; for a negative
height the sign is flipped and y shifted (height *= -1; y -= height);
then the four-corner rounded outline is traced and filled. -/
def drawRoundedRectOps (x y w h r : ℚ) : List CtxOp :=
  if h = 0 then []
  else
    let h1 : ℚ := if h < 0 then -h else h
    let y1 : ℚ := if h < 0 then y - h1 else y
    [CtxOp.beginPath,
     CtxOp.moveTo (x + r) y1,
     CtxOp.lineTo (x + w - r) y1,
     CtxOp.quadraticCurveTo (x + w) y1 (x + w) (y1 + r),
     CtxOp.lineTo (x + w) (y1 + h1 - r),
     CtxOp.quadraticCurveTo (x + w) (y1 + h1) (x + w - r) (y1 + h1),
     CtxOp.lineTo (x + r) (y1 + h1),
     CtxOp.quadraticCurveTo x (y1 + h1) x (y1 + h1 - r),
     CtxOp.lineTo x (y1 + r),
     CtxOp.quadraticCurveTo x y1 (x + r) y1,
     CtxOp.closePath,
     CtxOp.fill]

/-- fillRectToContext (drawer.canvasentry.js lines 240-250): a null context
is a silent no-op; a truthy (nonzero) radius dispatches to drawRoundedRect,
otherwise a plain ctx.fillRect. -/
def fillRectToContext (ctx : Option Ctx) (x y w h r : ℚ) : Option Ctx :=
  match ctx with
  | none => none
  | some c =>
    if r ≠ 0 then some { c with ops := c.ops ++ drawRoundedRectOps x y w h r }
    else some { c with ops := c.ops ++ [CtxOp.fillRect x y w h] }

/-- fillRects (drawer.canvasentry.js lines 215-228): draw on the wave
context, then on the progress context when hasProgressCanvas. -/
def fillRects (e : CanvasEntry) (x y w h r : ℚ) : CanvasEntry :=
  { e with
    waveCtx := fillRectToContext e.waveCtx x y w h r,
    progressCtx :=
      if e.hasProgressCanvas then fillRectToContext e.progressCtx x y w h r
      else e.progressCtx }

/-- Whether the recorded operation can change pixels of the surface.  Per
the HTML canvas specification fillRect and clearRect have no effect when
width or height is zero; bare path bookkeeping paints nothing; a fill is
conservatively counted as painting. -/
def opPaints : CtxOp → Bool
  | .fillRect _ _ w h => decide (w ≠ 0) && decide (h ≠ 0)
  | .clearRect _ _ w h => decide (w ≠ 0) && decide (h ≠ 0)
  | .fill => true
  | _ => false

/-- peaks[i] || 0 : a read past either end of the peaks array yields
undefined, which || turns into 0 (a stored 0 also stays 0). -/
def peakAt (peaks : List ℚ) (i : ℤ) : ℚ :=
  if 0 ≤ i then peaks.getD i.toNat 0 else 0

/-- first = Math.round(length * this.start) with length = peaks.length / 2
(drawer.canvasentry.js line 354). -/
def canvasFirst (peaksLen : ℕ) (tstart : ℚ) : ℤ :=
  jround ((peaksLen : ℚ) / 2 * tstart)

/-- last = Math.round(length * this.end) + 1 (drawer.canvasentry.js
line 358): one extra peak joins adjacent canvases at their shared edge. -/
def canvasLast (peaksLen : ℕ) (tend : ℚ) : ℤ :=
  jround ((peaksLen : ℚ) / 2 * tend) + 1

/-- scale = this.wave.width / (canvasEnd - canvasStart - 1)
(drawer.canvasentry.js line 362), in JavaScript arithmetic (a zero
denominator yields an infinity or NaN, not an error). -/
def drawLineScale (waveWidth : ℚ) (peaksLen : ℕ) (tstart tend : ℚ) : JSNum :=
  jsDiv (num waveWidth)
    (num ((canvasLast peaksLen tend : ℚ) - (canvasFirst peaksLen tstart : ℚ) - 1))

/-- x-coordinate of the loop vertices: (i - first) * scale + this.halfPixel. -/
def sampleX (scale : JSNum) (halfPixel : ℚ) (first i : ℤ) : JSNum :=
  jsAdd (jsMul (num ((i - first : ℤ) : ℚ)) scale) (num halfPixel)

/-- y-coordinate of the upper-envelope vertex of sample i:
halfOffset - Math.round((peaks[2 * i] || 0) / absmaxHalf). -/
def sampleTopY (peaks : List ℚ) (absmaxHalf : JSNum) (halfOffset : ℚ) (i : ℤ) : JSNum :=
  jsSub (num halfOffset) (jsRound (jsDiv (num (peakAt peaks (2 * i))) absmaxHalf))

/-- y-coordinate of the lower-envelope vertex of sample i:
halfOffset - Math.round((peaks[2 * i + 1] || 0) / absmaxHalf). -/
def sampleBotY (peaks : List ℚ) (absmaxHalf : JSNum) (halfOffset : ℚ) (i : ℤ) : JSNum :=
  jsSub (num halfOffset) (jsRound (jsDiv (num (peakAt peaks (2 * i + 1))) absmaxHalf))

/-- The integers f, f+1, ..., l-1 (the indices visited by a JavaScript
for-loop from f while < l). -/
def intRange (f l : ℤ) : List ℤ :=
  (List.range (l - f).toNat).map (fun k : ℕ => f + (k : ℤ))

/-- The points drawLineToContext (drawer.canvasentry.js lines 352-404)
passes to moveTo/lineTo, in order: the zero-line anchor and the first
sample's max value at x = (canvasStart - first) * scale, the forward walk
over the upper envelope, the backward walk over the lower envelope, and
the closing point at the first sample's min value. -/
def drawLineAttempted (waveWidth halfPixel tstart tend : ℚ) (peaks : List ℚ)
    (absmax halfH offsetY : ℚ) : List (JSNum × JSNum) :=
  let first := canvasFirst peaks.length tstart
  let last := canvasLast peaks.length tend
  let scale := drawLineScale waveWidth peaks.length tstart tend
  let halfOffset : ℚ := halfH + offsetY
  let absmaxHalf : JSNum := jsDiv (num absmax) (num halfH)
  [(jsMul (num 0) scale, num halfOffset),
   (jsMul (num 0) scale, sampleTopY peaks absmaxHalf halfOffset first)]
  ++ (intRange first last).map
      (fun i => (sampleX scale halfPixel first i, sampleTopY peaks absmaxHalf halfOffset i))
  ++ ((intRange first last).reverse.map
      (fun j => (sampleX scale halfPixel first j, sampleBotY peaks absmaxHalf halfOffset j)))
  ++ [(jsMul (num 0) scale, sampleBotY peaks absmaxHalf halfOffset first)]

/-- Keep a point only when both coordinates are finite: the HTML canvas
ignores moveTo/lineTo calls whose arguments are non-finite. -/
def finitePair : JSNum × JSNum → Option (ℚ × ℚ)
  | (num a, num b) => some (a, b)
  | _ => none

/-- The path points the canvas actually records for a drawLineToContext
call (non-finite coordinates dropped). -/
def recordedPath (pts : List (JSNum × JSNum)) : List (ℚ × ℚ) :=
  pts.filterMap finitePair

/-- The operation trace of one drawLineToContext call on an attached
context: beginPath, the accepted path points, closePath, fill. -/
def drawLineOps (waveWidth halfPixel tstart tend : ℚ) (peaks : List ℚ)
    (absmax halfH offsetY : ℚ) : List CtxOp :=
  [CtxOp.beginPath]
  ++ (recordedPath (drawLineAttempted waveWidth halfPixel tstart tend peaks absmax halfH offsetY)).map
      (fun p => CtxOp.pathPoint p.1 p.2)
  ++ [CtxOp.closePath, CtxOp.fill]

/-- drawLineToContext (drawer.canvasentry.js lines 347-404): a null
context returns immediately (silent no-op); otherwise this.wave.width is
read (a TypeError if the wave element is missing while a context exists)
and the closed hull is traced and filled. -/
def drawLineToContext (wave : Option Canvas) (halfPixel tstart tend : ℚ)
    (ctx : Option Ctx) (peaks : List ℚ) (absmax halfH offsetY : ℚ) :
    Except String (Option Ctx) :=
  match ctx with
  | none => .ok none
  | some c =>
    match wave with
    | none => .error "TypeError: null wave in drawLineToContext"
    | some wv =>
      .ok (some { c with
        ops := c.ops ++ drawLineOps wv.width halfPixel tstart tend peaks absmax halfH offsetY })

/-- drawLines (drawer.canvasentry.js lines 307-331): drawLineToContext on
the wave context, then on the progress context when hasProgressCanvas. -/
def drawLines (e : CanvasEntry) (peaks : List ℚ) (absmax halfH offsetY : ℚ) :
    Except String CanvasEntry := do
  let w ← drawLineToContext e.wave e.halfPixel e.start e.end_ e.waveCtx peaks absmax halfH offsetY
  if e.hasProgressCanvas then
    let p ← drawLineToContext e.wave e.halfPixel e.start e.end_ e.progressCtx peaks absmax halfH offsetY
    pure { e with waveCtx := w, progressCtx := p }
  else
    pure { e with waveCtx := w }

/-- The span start assigned by updateDimensions (drawer.canvasentry.js
line 107): this.start = this.wave.offsetLeft / totalWidth || 0, i.e. the
quotient when it is truthy (nonzero and not NaN), else 0. -/
def updateStart (offsetLeft totalWidth : ℚ) : JSNum :=
  let q := jsDiv (num offsetLeft) (num totalWidth)
  if jsTruthy q then q else num 0

/-- The span end assigned by updateDimensions (drawer.canvasentry.js
line 108): this.end = this.start + elementWidth / totalWidth. -/
def updateEnd (offsetLeft elementWidth totalWidth : ℚ) : JSNum :=
  jsAdd (updateStart offsetLeft totalWidth) (jsDiv (num elementWidth) (num totalWidth))

/-- A binary image blob (carrier for the export model). -/
structure Blob where
  bytes : List ℕ
deriving DecidableEq, Repr

/-- The single settlement of a JavaScript Promise. -/
inductive PromiseOutcome where
  | resolved (b : Option Blob)
  | rejected (reason : String)
deriving DecidableEq, Repr

/-- Whether the promise settled through its failure (rejection) channel. -/
def isRejected : PromiseOutcome → Bool
  | .rejected _ => true
  | _ => false

/-- Outcome of the blob export promise, new Promise(resolve =>
this.wave.toBlob(resolve, format, quality)) (drawer.canvasentry.js
lines 433-435): toBlob invokes its callback with the encoded blob, or
with null when the blob cannot be created; only the resolve callback is
wired, so the promise settles by resolving with that value either way. -/
def blobExportOutcome (toBlobResult : Option Blob) : PromiseOutcome :=
  .resolved toBlobResult

/-- What getImage hands back to its caller: a synchronously returned
string, a pending promise, or undefined. -/
inductive ExportReturn where
  | sync (s : String)
  | pendingPromise
  | otherValue
deriving DecidableEq, Repr

/-- getImage (drawer.canvasentry.js lines 431-439): type 'blob' returns a
pending Promise; type 'dataURL' returns this.wave.toDataURL(format,
quality) synchronously; any other type returns undefined. -/
def getImage (waveDataURL : String) (typ : String) : ExportReturn :=
  if typ = "blob" then .pendingPromise
  else if typ = "dataURL" then .sync waveDataURL
  else .otherValue

/-- Modelled from the spec: src/util/max.js is absent from src/ (absMax.js
imports utilMax from './max').  Symmetric to the present util min
(src/util/frame.js lines 23-31) and matching the absMax doc example
(max([-3, 2, 4]) is 4): fold the JavaScript < comparison from -Infinity,
keeping the larger value. -/
def utilMax (values : List ℚ) : JSNum :=
  values.foldl (fun largest v => if jsLtB largest (num v) then num v else largest)
    (inf false)

/-- The util min function (src/util/frame.js lines 23-31): starting from
Number(Infinity), replace the accumulator whenever values[i] < smallest,
visiting indices in ascending order. -/
def utilmin (values : List ℚ) : JSNum :=
  values.foldl (fun smallest v => if jsLtB (num v) smallest then num v else smallest)
    (inf true)

/-- absMax (src/util/absMax.js lines 13-17): -min > max ? -min : max. -/
def absMax (values : List ℚ) : JSNum :=
  let mx := utilMax values
  let mn := utilmin values
  if jsLtB mx (jsNeg mn) then jsNeg mn else mx

example : absMax [-3, 2, 1] = num 3 := by
  norm_num [absMax, utilMax, utilmin, List.foldl, jsLtB, jsNeg]
example : absMax [-3, 2, 4] = num 4 := by
  norm_num [absMax, utilMax, utilmin, List.foldl, jsLtB, jsNeg]
example : utilmin [1, 2, 3] = num 1 := by
  norm_num [utilmin, List.foldl, jsLtB]
example : getFillStyle 30 (.arr ["a", "b", "c"]) =
    .gradient 0 0 0 30 [(0, "a"), (1/3, "b"), (2/3, "c")] := by
  norm_num [getFillStyle, addStops]
example : drawLineScale 100 4 0 1 = num 50 := by
  norm_num [drawLineScale, canvasFirst, canvasLast, jround, jsDiv]

/-! Helper lemmas about the gradient stop list. -/

theorem addStops_length (len idx : ℕ) (cs : List String) :
    (addStops len idx cs).length = cs.length := by
  induction cs generalizing idx with
  | nil => rfl
  | cons c cs ih => simp [addStops, ih]

theorem addStops_get (len : ℕ) (cs : List String) :
    ∀ (idx j : ℕ) (hj : j < cs.length) (hj2 : j < (addStops len idx cs).length),
      (addStops len idx cs).get ⟨j, hj2⟩ =
        (((idx + j : ℕ) : ℚ) / (len : ℚ), cs.get ⟨j, hj⟩) := by
  induction cs with
  | nil => intro idx j hj _; exact absurd hj (by simp)
  | cons c cs ih =>
    intro idx j hj hj2
    cases j with
    | zero => simp [addStops]
    | succ j =>
      have hj3 : j < cs.length := by simpa using hj
      have hj4 : j < (addStops len (idx + 1) cs).length := by
        rw [addStops_length]; exact hj3
      have := ih (idx + 1) j hj3 hj4
      simp only [addStops, List.get_cons_succ]
      rw [this]
      have harith : (idx + 1 + j : ℕ) = idx + (j + 1) := by omega
      rw [harith]

theorem addStops_offset_mem (len : ℕ) (cs : List String) :
    ∀ (idx : ℕ), ∀ p ∈ addStops len idx cs,
      ∃ j, j < cs.length ∧ p.1 = ((idx + j : ℕ) : ℚ) / (len : ℚ) := by
  induction cs with
  | nil => intro idx p hp; simp [addStops] at hp
  | cons c cs ih =>
    intro idx p hp
    rcases List.mem_cons.mp hp with rfl | hp
    · exact ⟨0, by simp, by simp⟩
    · obtain ⟨j, hj, hoff⟩ := ih (idx + 1) p hp
      exact ⟨j + 1, by simpa using hj, by rw [hoff]; congr 1; push_cast; ring⟩

/-- C1: for an ordered list of k colors (k >= 1) getFillStyle builds a
vertical linear gradient from y = 0 to y = canvasHeight with exactly k
stops, stop j at offset j/k, every offset strictly below 1; a single
string color is returned unchanged. -/
theorem c1_fill_resolver (hgt : ℚ) (cs : List String) (hk : 1 ≤ cs.length) :
    (∀ s, getFillStyle hgt (.str s) = .color s) ∧
    ∃ stops, getFillStyle hgt (.arr cs) = .gradient 0 0 0 hgt stops ∧
      stops.length = cs.length ∧
      (∀ (j : ℕ) (hj : j < stops.length),
        (stops.get ⟨j, hj⟩).1 = (j : ℚ) / (cs.length : ℚ)) ∧
      (∀ p ∈ stops, p.1 < 1) := by
  refine ⟨fun s => rfl, addStops cs.length 0 cs, rfl, addStops_length _ _ _, ?_, ?_⟩
  · intro j hj
    have hj2 : j < cs.length := by rwa [addStops_length] at hj
    rw [addStops_get cs.length cs 0 j hj2 hj]
    simp
  · intro p hp
    obtain ⟨j, hj, hoff⟩ := addStops_offset_mem cs.length cs 0 p hp
    rw [hoff]
    have hlen : (0 : ℚ) < (cs.length : ℚ) := by
      exact_mod_cast Nat.lt_of_lt_of_le Nat.zero_lt_one hk
    rw [div_lt_one hlen]
    simp only [Nat.zero_add]
    exact_mod_cast hj

/-- Witness for C1 at a concrete two-color list and height 30. -/
theorem c1_fill_resolver_witness :
    1 ≤ (["red", "blue"] : List String).length ∧
    ((∀ s, getFillStyle 30 (.str s) = .color s) ∧
     ∃ stops, getFillStyle 30 (.arr ["red", "blue"]) = .gradient 0 0 0 30 stops ∧
       stops.length = (["red", "blue"] : List String).length ∧
       (∀ (j : ℕ) (hj : j < stops.length),
         (stops.get ⟨j, hj⟩).1 = (j : ℚ) / ((["red", "blue"] : List String).length : ℚ)) ∧
       (∀ p ∈ stops, p.1 < 1)) :=
  ⟨by decide, c1_fill_resolver 30 ["red", "blue"] (by decide)⟩

/-- drawRoundedRect with a negative height traces the same path as with
the absolute height and a y origin shifted by the (negative) height. -/
theorem drawRoundedRectOps_neg (x y w h r : ℚ) (hneg : h < 0) :
    drawRoundedRectOps x y w h r = drawRoundedRectOps x (y + h) w (-h) r := by
  have h0 : ¬(h = 0) := ne_of_lt hneg
  have h0r : ¬(-h = 0) := by simpa using h0
  have hnl : ¬(-h < 0) := by simp [neg_neg]; exact le_of_lt hneg
  simp only [drawRoundedRectOps, if_neg h0, if_neg h0r, if_pos hneg, if_neg hnl]
  norm_num [sub_neg_eq_add]

/-- C7: for nonzero radius and negative height h, drawBar (fillRects per
surface = fillRectToContext) with height h at origin y performs exactly
the operations of drawBar with height abs h at origin y + h. -/
theorem c7_negative_height_bar (ctx : Option Ctx) (x y w r h : ℚ)
    (hr : r ≠ 0) (hneg : h < 0) :
    fillRectToContext ctx x y w h r = fillRectToContext ctx x (y + h) w |h| r := by
  have habs : |h| = -h := abs_of_neg hneg
  cases ctx with
  | none => rfl
  | some c =>
    simp only [fillRectToContext, if_pos hr, habs]
    rw [drawRoundedRectOps_neg x y w h r hneg]

/-- Concrete test context shared by the witnesses below. -/
def ctx0 : Ctx :=
  { canvas := { width := 100, height := 60 }, fillStyle := .color "black", ops := [] }

/-- Witness for C7 at radius 1 and height -2. -/
theorem c7_negative_height_bar_witness :
    (1 : ℚ) ≠ 0 ∧ (-2 : ℚ) < 0 ∧
    fillRectToContext (some ctx0) 0 5 10 (-2) 1 =
      fillRectToContext (some ctx0) 0 (5 + -2) 10 |(-2 : ℚ)| 1 :=
  ⟨by norm_num, by norm_num,
   c7_negative_height_bar (some ctx0) 0 5 10 1 (-2) (by norm_num) (by norm_num)⟩

/-- C8: drawBar (fillRectToContext) with height exactly 0 appends only
operations that cannot change any pixel of the surface, and raises no
error, for every x, y, width and radius. -/
theorem c8_zero_height_bar (c : Ctx) (x y w r : ℚ) :
    ∃ L, fillRectToContext (some c) x y w 0 r = some { c with ops := c.ops ++ L } ∧
      ∀ op ∈ L, opPaints op = false := by
  by_cases hr : r = 0
  · refine ⟨[CtxOp.fillRect x y w 0], ?_, ?_⟩
    · simp [fillRectToContext, hr]
    · intro op hop
      rw [List.mem_singleton] at hop
      subst hop
      simp [opPaints]
  · refine ⟨[], ?_, by simp⟩
    simp [fillRectToContext, hr, drawRoundedRectOps]

/-- C5 (amended): getImage returns the data URL string synchronously in
'dataURL' mode and a pending promise in 'blob' mode; the blob promise is
wired with only the resolve callback, so a blob-creation failure (toBlob
handing back null) settles it by resolving with null, not through the
rejection channel. -/
theorem c5_export_modes (d : String) :
    getImage d "dataURL" = .sync d ∧
    getImage d "blob" = .pendingPromise ∧
    (∀ r : Option Blob, blobExportOutcome r = .resolved r) ∧
    isRejected (blobExportOutcome none) = false :=
  ⟨rfl, rfl, fun _ => rfl, rfl⟩

/-- Counterexample for C5 as stated: an encode/blob-creation failure does
not surface through the promise's rejection channel; the promise resolves
with the null blob instead. -/
theorem c5_failure_resolves_not_rejects :
    blobExportOutcome none = PromiseOutcome.resolved none ∧
    isRejected (blobExportOutcome none) = false :=
  ⟨rfl, rfl⟩

/-- C9 (amended): updateDimensions derives start as the JavaScript value
of offsetLeft / totalWidth || 0 and end as start + elementWidth /
totalWidth.  For nonzero totalWidth this is the exact quotient; for
totalWidth = 0 the start is 0 only when offsetLeft is 0 (the NaN case of
0/0); a positive offsetLeft with totalWidth = 0 yields +Infinity. -/
theorem c9_span_derivation (o e t : ℚ) :
    (t ≠ 0 → updateStart o t = num (o / t) ∧
      updateEnd o e t = num (o / t + e / t)) ∧
    (t = 0 → o = 0 → updateStart o t = num 0) ∧
    (t = 0 → 0 < o → updateStart o t = inf true) := by
  refine ⟨?_, ?_, ?_⟩
  · intro ht
    have hdiv : jsDiv (num o) (num t) = num (o / t) := by simp [jsDiv, ht]
    have hstart : updateStart o t = num (o / t) := by
      unfold updateStart
      rw [hdiv]
      by_cases hz : o / t = 0
      · simp [jsTruthy, hz]
      · simp [jsTruthy, hz]
    refine ⟨hstart, ?_⟩
    unfold updateEnd
    rw [hstart]
    have hdiv2 : jsDiv (num e) (num t) = num (e / t) := by simp [jsDiv, ht]
    rw [hdiv2]
    rfl
  · intro ht ho
    subst ht; subst ho
    simp [updateStart, jsDiv, jsTruthy]
  · intro ht ho
    subst ht
    unfold updateStart
    have hdiv : jsDiv (num o) (num 0) = inf true := by
      simp [jsDiv, ne_of_gt ho, ho]
    rw [hdiv]
    simp [jsTruthy]

/-- Witness for C9 at (offsetLeft, elementWidth, totalWidth) = (2, 4, 8),
(0, _, 0) and (5, _, 0). -/
theorem c9_span_witness :
    updateStart 2 8 = num (2 / 8) ∧ updateEnd 2 4 8 = num (2 / 8 + 4 / 8) ∧
    updateStart 0 0 = num 0 ∧ updateStart 5 0 = inf true :=
  ⟨((c9_span_derivation 2 4 8).1 (by norm_num)).1,
   ((c9_span_derivation 2 4 8).1 (by norm_num)).2,
   (c9_span_derivation 0 0 0).2.1 rfl rfl,
   (c9_span_derivation 5 0 0).2.2 rfl (by norm_num)⟩

/-- Counterexample for C9 as stated: with totalWidth = 0 and a left offset
of 5 the assigned start is +Infinity, not 0. -/
theorem c9_zero_total_width_cex :
    updateStart 5 0 = inf true ∧ ¬ updateStart 5 0 = num 0 := by
  have h : updateStart 5 0 = inf true := by
    norm_num [updateStart, jsDiv, jsTruthy]
  refine ⟨h, ?_⟩
  rw [h]
  intro hc
  exact JSNum.noConfusion hc

/-- C2 (amended): for a tile whose contexts were never attached, the
guarded operations drawLines and fillRects are silent no-ops that leave
the entry unchanged, but clearWave and setFillStyles dereference the null
context and raise a TypeError. -/
theorem c2_unattached_surfaces (e : CanvasEntry) (hw : e.waveCtx = none)
    (hp : e.progressCtx = none) (peaks : List ℚ)
    (absmax halfH offsetY x y w h r : ℚ) (wc pc : WaveColor) :
    drawLines e peaks absmax halfH offsetY = .ok e ∧
    fillRects e x y w h r = e ∧
    isOkB (clearWave e) = false ∧
    isOkB (setFillStyles e wc pc) = false := by
  refine ⟨?_, ?_, ?_, ?_⟩
  · unfold drawLines
    rw [hw, hp]
    cases hpc : e.hasProgressCanvas with
    | false =>
      simp only [drawLineToContext, hpc, Bind.bind, Except.bind, Bool.false_eq_true,
        if_false, pure, Except.pure, Except.ok.injEq]
      cases e
      simp_all
    | true =>
      simp only [drawLineToContext, hpc, Bind.bind, Except.bind, if_true, pure,
        Except.pure, Except.ok.injEq]
      cases e
      simp_all
  · unfold fillRects
    rw [hw, hp]
    cases hpc : e.hasProgressCanvas with
    | false =>
      simp only [fillRectToContext, Bool.false_eq_true, if_false]
      cases e
      simp_all
    | true =>
      simp only [fillRectToContext, if_true]
      cases e
      simp_all
  · unfold clearWave
    rw [hw]
    rfl
  · unfold setFillStyles
    rw [hw]
    rfl

/-- A freshly constructed entry: no canvases attached, start 0, end 1. -/
def entry0 : CanvasEntry :=
  { wave := none, waveCtx := none, progress := none, progressCtx := none,
    start := 0, end_ := 1, hasProgressCanvas := false, halfPixel := 0 }

/-- Witness for C2 on a freshly constructed entry. -/
theorem c2_unattached_surfaces_witness :
    entry0.waveCtx = none ∧ entry0.progressCtx = none ∧
    (drawLines entry0 [1, -1] 1 50 0 = .ok entry0 ∧
     fillRects entry0 1 2 3 4 5 = entry0 ∧
     isOkB (clearWave entry0) = false ∧
     isOkB (setFillStyles entry0 (.str "red") (.str "blue")) = false) :=
  ⟨rfl, rfl,
   c2_unattached_surfaces entry0 rfl rfl [1, -1] 1 50 0 1 2 3 4 5
     (.str "red") (.str "blue")⟩

/-- Counterexample for C2 as stated: clearWave on a never-attached tile is
not a silent no-op; it raises a TypeError. -/
theorem c2_clearwave_raises :
    clearWave entry0 = Except.error "TypeError: null waveCtx in clearWave" := rfl

/-! Helper lemmas about the loop index range. -/

theorem intRange_head (f l : ℤ) (h : f < l) : (intRange f l).head? = some f := by
  unfold intRange
  obtain ⟨n, hn⟩ : ∃ n, (l - f).toNat = n + 1 := ⟨(l - f).toNat - 1, by omega⟩
  rw [hn, List.range_succ_eq_map]
  simp

theorem intRange_getLast (f l : ℤ) (h : f < l) :
    (intRange f l).getLast? = some (l - 1) := by
  unfold intRange
  obtain ⟨n, hn⟩ : ∃ n, (l - f).toNat = n + 1 := ⟨(l - f).toNat - 1, by omega⟩
  rw [hn, List.range_succ, List.map_append]
  simp only [List.map_cons, List.map_nil]
  rw [List.getLast?_concat]
  congr 1
  omega

theorem jround_mono {a b : ℚ} (h : a ≤ b) : jround a ≤ jround b :=
  Int.floor_le_floor (by linarith)

/-- C4: for adjacent tiles A (end = e) and B (start = e) over a series of
N sample pairs (peaks array length 2N), the last sample index of A's
forward walk and the first sample index of B's forward walk are both
round(N * e): exactly one boundary sample is shared. -/
theorem c4_tile_boundary (N : ℕ) (aStart e bEnd : ℚ)
    (h1 : aStart ≤ e) (h2 : e ≤ bEnd) :
    (intRange (canvasFirst (2 * N) aStart) (canvasLast (2 * N) e)).getLast? =
      some (jround ((N : ℚ) * e)) ∧
    (intRange (canvasFirst (2 * N) e) (canvasLast (2 * N) bEnd)).head? =
      some (jround ((N : ℚ) * e)) := by
  have hlen : ((2 * N : ℕ) : ℚ) / 2 = (N : ℚ) := by push_cast; ring
  have hnn : (0 : ℚ) ≤ ((2 * N : ℕ) : ℚ) / 2 := by positivity
  constructor
  · have hmono := jround_mono (mul_le_mul_of_nonneg_left h1 hnn)
    have hlt : canvasFirst (2 * N) aStart < canvasLast (2 * N) e := by
      unfold canvasFirst canvasLast
      omega
    rw [intRange_getLast _ _ hlt]
    unfold canvasLast
    rw [hlen]
    congr 1
    omega
  · have hmono := jround_mono (mul_le_mul_of_nonneg_left h2 hnn)
    have hlt : canvasFirst (2 * N) e < canvasLast (2 * N) bEnd := by
      unfold canvasFirst canvasLast
      omega
    rw [intRange_head _ _ hlt]
    unfold canvasFirst
    rw [hlen]

/-- Witness for C4: N = 4 sample pairs, boundary e = 1/2, so both tiles
meet at sample index round(4 * 1/2) = 2. -/
theorem c4_tile_boundary_witness :
    (intRange (canvasFirst (2 * 4) 0) (canvasLast (2 * 4) (1/2))).getLast? =
      some 2 ∧
    (intRange (canvasFirst (2 * 4) (1/2)) (canvasLast (2 * 4) 1)).head? =
      some 2 := by
  have h := c4_tile_boundary 4 0 (1/2) 1 (by norm_num) (by norm_num)
  have hval : jround (((4 : ℕ) : ℚ) * (1/2)) = 2 := by
    norm_num [jround]
  rw [hval] at h
  exact h

/-- C3 (amended): for series [1, -1, 1/2, -1/2], absMax 1, halfHeight 50,
offsetY 0, span 0..1 and surface width 100, the drawn hull is the list
below for any halfPixel hp: the first sample's top vertex has y = 0 and
its bottom vertex y = 100, and the computed horizontal scale is 50
(the code divides by canvasEnd - canvasStart - 1 = 3 - 0 - 1 = 2),
not 100. -/
theorem c3_concrete_draw (hp : ℚ) :
    drawLineAttempted 100 hp 0 1 [1, -1, 1/2, -1/2] 1 50 0 =
      [(num 0, num 50), (num 0, num 0),
       (num hp, num 0), (num (50 + hp), num 25), (num (100 + hp), num 50),
       (num (100 + hp), num 50), (num (50 + hp), num 75), (num hp, num 100),
       (num 0, num 100)] ∧
    drawLineScale 100 4 0 1 = num 50 := by
  have hscale : drawLineScale 100 4 0 1 = num 50 := by
    norm_num [drawLineScale, canvasFirst, canvasLast, jround, jsDiv]
  have hfirst : canvasFirst 4 0 = 0 := by norm_num [canvasFirst, jround]
  have hlast : canvasLast 4 1 = 3 := by norm_num [canvasLast, jround]
  have hrange : intRange 0 3 = [0, 1, 2] := by decide
  have pk0 : peakAt ([1, -1, 1/2, -(1/2)] : List ℚ) 0 = 1 := rfl
  have pk1 : peakAt ([1, -1, 1/2, -(1/2)] : List ℚ) 1 = -1 := rfl
  have pk2 : peakAt ([1, -1, 1/2, -(1/2)] : List ℚ) 2 = 1/2 := rfl
  have pk3 : peakAt ([1, -1, 1/2, -(1/2)] : List ℚ) 3 = -(1/2) := rfl
  have pk4 : peakAt ([1, -1, 1/2, -(1/2)] : List ℚ) 4 = 0 := rfl
  have pk5 : peakAt ([1, -1, 1/2, -(1/2)] : List ℚ) 5 = 0 := rfl
  have t0 : sampleTopY ([1, -1, 1/2, -(1/2)] : List ℚ) (jsDiv (num 1) (num 50)) 50 0 = num 0 := by
    norm_num [sampleTopY, pk0, jsDiv, jsSub, jsAdd, jsNeg, jsRound, jround]
  have t1 : sampleTopY ([1, -1, 1/2, -(1/2)] : List ℚ) (jsDiv (num 1) (num 50)) 50 1 = num 25 := by
    norm_num [sampleTopY, pk2, jsDiv, jsSub, jsAdd, jsNeg, jsRound, jround]
  have t2 : sampleTopY ([1, -1, 1/2, -(1/2)] : List ℚ) (jsDiv (num 1) (num 50)) 50 2 = num 50 := by
    norm_num [sampleTopY, pk4, jsDiv, jsSub, jsAdd, jsNeg, jsRound, jround]
  have b0 : sampleBotY ([1, -1, 1/2, -(1/2)] : List ℚ) (jsDiv (num 1) (num 50)) 50 0 = num 100 := by
    norm_num [sampleBotY, pk1, jsDiv, jsSub, jsAdd, jsNeg, jsRound, jround]
  have b1 : sampleBotY ([1, -1, 1/2, -(1/2)] : List ℚ) (jsDiv (num 1) (num 50)) 50 1 = num 75 := by
    norm_num [sampleBotY, pk3, jsDiv, jsSub, jsAdd, jsNeg, jsRound, jround]
  have b2 : sampleBotY ([1, -1, 1/2, -(1/2)] : List ℚ) (jsDiv (num 1) (num 50)) 50 2 = num 50 := by
    norm_num [sampleBotY, pk5, jsDiv, jsSub, jsAdd, jsNeg, jsRound, jround]
  refine ⟨?_, hscale⟩
  simp only [drawLineAttempted, List.length_cons, List.length_nil]
  norm_num [hfirst, hlast, hscale, hrange, List.reverse_cons, List.reverse_nil]
  norm_num [t0, t1, t2, b0, b1, b2, sampleX, jsMul, jsAdd]

/-- Counterexample for C3 as stated: the horizontal scale at the claim's
concrete input is 50, not 100. -/
theorem c3_scale_cex :
    drawLineScale 100 4 0 1 = num 50 ∧ ¬ drawLineScale 100 4 0 1 = num 100 := by
  norm_num [drawLineScale, canvasFirst, canvasLast, jround, jsDiv]

/-- In JavaScript, 0 * (w / 0) is NaN for every finite w: w/0 is an
infinity (or NaN for w = 0) and multiplying by 0 gives NaN either way. -/
theorem jsMul_zero_div_zero (w : ℚ) : jsMul (num 0) (jsDiv (num w) (num 0)) = nan := by
  rcases lt_trichotomy w 0 with hw | hw | hw
  · simp [jsDiv, jsMul, ne_of_lt hw, not_lt.mpr (le_of_lt hw)]
  · subst hw; simp [jsDiv, jsMul]
  · simp [jsDiv, jsMul, ne_of_gt hw, hw]

theorem intRange_single (f : ℤ) : intRange f (f + 1) = [f] := by
  unfold intRange
  norm_num [List.range_succ]

/-- C6: for a zero-length span (start = end), drawLineToContext raises no
error and draws nothing: the scale divides by zero, every x-coordinate is
NaN (0 * Infinity or NaN arithmetic), the canvas drops every path point,
and the fill acts on an empty path. -/
theorem c6_zero_span_noop (wv : Canvas) (hp s : ℚ) (c : Ctx) (peaks : List ℚ)
    (absmax halfH offsetY : ℚ) :
    recordedPath (drawLineAttempted wv.width hp s s peaks absmax halfH offsetY) = [] ∧
    drawLineToContext (some wv) hp s s (some c) peaks absmax halfH offsetY =
      .ok (some { c with ops := c.ops ++ [CtxOp.beginPath, CtxOp.closePath, CtxOp.fill] }) := by
  have hl : canvasLast peaks.length s = canvasFirst peaks.length s + 1 := rfl
  have hzero : ((canvasLast peaks.length s : ℤ) : ℚ) -
      ((canvasFirst peaks.length s : ℤ) : ℚ) - 1 = 0 := by
    rw [hl]; push_cast; ring
  have hscale : drawLineScale wv.width peaks.length s s = jsDiv (num wv.width) (num 0) := by
    unfold drawLineScale
    rw [hzero]
  have hmul : jsMul (num 0) (jsDiv (num wv.width) (num 0)) = nan :=
    jsMul_zero_div_zero wv.width
  have hrec : recordedPath (drawLineAttempted wv.width hp s s peaks absmax halfH offsetY) = [] := by
    simp only [drawLineAttempted, hscale, hl, intRange_single, hmul, List.map_cons,
      List.map_nil, List.reverse_cons, List.reverse_nil, List.nil_append]
    simp only [sampleX, Int.sub_self, Int.cast_zero, hmul, jsAdd]
    simp [recordedPath, finitePair]
  refine ⟨hrec, ?_⟩
  simp only [drawLineToContext, drawLineOps, hrec, List.map_nil]
  rfl

/-! Helper lemmas for the absMax utilities: once the accumulator is a
finite number, the JavaScript folds coincide with the rational max/min
folds. -/

theorem foldlMax_num (vs : List ℚ) (a : ℚ) :
    vs.foldl (fun big v => if jsLtB big (num v) then num v else big) (num a) =
      num (vs.foldl max a) := by
  induction vs generalizing a with
  | nil => rfl
  | cons v vs ih =>
    have hstep : (if jsLtB (num a) (num v) then num v else num a) = num (max a v) := by
      by_cases h : a < v
      · simp [jsLtB, h, max_eq_right (le_of_lt h)]
      · simp [jsLtB, h, max_eq_left (not_lt.mp h)]
    simp only [List.foldl_cons, hstep, ih]

theorem foldlMin_num (vs : List ℚ) (a : ℚ) :
    vs.foldl (fun small v => if jsLtB (num v) small then num v else small) (num a) =
      num (vs.foldl min a) := by
  induction vs generalizing a with
  | nil => rfl
  | cons v vs ih =>
    have hstep : (if jsLtB (num v) (num a) then num v else num a) = num (min a v) := by
      by_cases h : v < a
      · simp [jsLtB, h, min_eq_right (le_of_lt h)]
      · simp [jsLtB, h, min_eq_left (not_lt.mp h)]
    simp only [List.foldl_cons, hstep, ih]

theorem utilMax_cons (v : ℚ) (vs : List ℚ) : utilMax (v :: vs) = num (vs.foldl max v) := by
  unfold utilMax
  simp only [List.foldl_cons]
  rw [show (if jsLtB (inf false) (num v) then num v else inf false) = num v by
    simp [jsLtB]]
  exact foldlMax_num vs v

theorem utilmin_cons (v : ℚ) (vs : List ℚ) : utilmin (v :: vs) = num (vs.foldl min v) := by
  unfold utilmin
  simp only [List.foldl_cons]
  rw [show (if jsLtB (num v) (inf true) then num v else inf true) = num v by
    simp [jsLtB]]
  exact foldlMin_num vs v

theorem foldl_max_bound (vs : List ℚ) (a : ℚ) :
    a ≤ vs.foldl max a ∧ ∀ v ∈ vs, v ≤ vs.foldl max a := by
  induction vs generalizing a with
  | nil => simp
  | cons v vs ih =>
    obtain ⟨h1, h2⟩ := ih (max a v)
    refine ⟨le_trans (le_max_left a v) h1, ?_⟩
    intro w hw
    rcases List.mem_cons.mp hw with rfl | hw
    · exact le_trans (le_max_right a w) h1
    · exact h2 w hw

theorem foldl_min_bound (vs : List ℚ) (a : ℚ) :
    vs.foldl min a ≤ a ∧ ∀ v ∈ vs, vs.foldl min a ≤ v := by
  induction vs generalizing a with
  | nil => simp
  | cons v vs ih =>
    obtain ⟨h1, h2⟩ := ih (min a v)
    refine ⟨le_trans h1 (min_le_left a v), ?_⟩
    intro w hw
    rcases List.mem_cons.mp hw with rfl | hw
    · exact le_trans h1 (min_le_right a w)
    · exact h2 w hw

theorem foldl_max_mem (vs : List ℚ) (a : ℚ) :
    vs.foldl max a = a ∨ vs.foldl max a ∈ vs := by
  induction vs generalizing a with
  | nil => left; rfl
  | cons v vs ih =>
    simp only [List.foldl_cons]
    rcases ih (max a v) with h | h
    · rcases le_total a v with hav | hav
      · right
        rw [h, max_eq_right hav]
        exact List.mem_cons_self v vs
      · left
        rw [h, max_eq_left hav]
    · right
      exact List.mem_cons_of_mem v h

theorem foldl_min_mem (vs : List ℚ) (a : ℚ) :
    vs.foldl min a = a ∨ vs.foldl min a ∈ vs := by
  induction vs generalizing a with
  | nil => left; rfl
  | cons v vs ih =>
    simp only [List.foldl_cons]
    rcases ih (min a v) with h | h
    · rcases le_total v a with hav | hav
      · right
        rw [h, min_eq_right hav]
        exact List.mem_cons_self v vs
      · left
        rw [h, min_eq_left hav]
    · right
      exact List.mem_cons_of_mem v h

/-- C10: for every non-empty array, absMax returns (as a finite number)
the maximum absolute value of the elements, computed as the larger of the
fold maximum and the negated fold minimum. -/
theorem c10_absMax_correct (values : List ℚ) (hne : values ≠ []) :
    ∃ q : ℚ, absMax values = num q ∧ (∀ v ∈ values, |v| ≤ q) ∧
      ∃ v ∈ values, |v| = q := by
  obtain ⟨v, vs, rfl⟩ := List.exists_cons_of_ne_nil hne
  have hMax := utilMax_cons v vs
  have hMin := utilmin_cons v vs
  set M := vs.foldl max v with hMeq
  set m := vs.foldl min v with hmeq
  have hMbd := foldl_max_bound vs v
  have hmbd := foldl_min_bound vs v
  have hub : ∀ w ∈ v :: vs, w ≤ M := by
    intro w hw
    rcases List.mem_cons.mp hw with rfl | hw
    · exact hMbd.1
    · exact hMbd.2 w hw
  have hlb : ∀ w ∈ v :: vs, m ≤ w := by
    intro w hw
    rcases List.mem_cons.mp hw with rfl | hw
    · exact hmbd.1
    · exact hmbd.2 w hw
  have hMmem : M ∈ v :: vs := by
    rcases foldl_max_mem vs v with h | h
    · rw [hMeq, h]; exact List.mem_cons_self v vs
    · exact List.mem_cons_of_mem v (hMeq ▸ h)
  have hmmem : m ∈ v :: vs := by
    rcases foldl_min_mem vs v with h | h
    · rw [hmeq, h]; exact List.mem_cons_self v vs
    · exact List.mem_cons_of_mem v (hmeq ▸ h)
  have hmM : m ≤ M := le_trans (hlb v (List.mem_cons_self v vs))
    (hub v (List.mem_cons_self v vs))
  unfold absMax
  rw [hMax, hMin]
  simp only [jsNeg]
  by_cases hc : M < -m
  · have hm0 : m < 0 := by linarith
    refine ⟨-m, by simp [jsLtB, hc], ?_, ?_⟩
    · intro w hw
      rw [abs_le]
      constructor
      · linarith [hlb w hw]
      · linarith [hub w hw]
    · exact ⟨m, hmmem, abs_of_neg hm0⟩
  · have hM0 : 0 ≤ M := by
      rw [not_lt] at hc
      linarith
    refine ⟨M, by simp [jsLtB, hc], ?_, ?_⟩
    · intro w hw
      rw [not_lt] at hc
      rw [abs_le]
      constructor
      · linarith [hlb w hw]
      · exact hub w hw
    · exact ⟨M, hMmem, abs_of_nonneg hM0⟩

/-- Witness for C10 on the doc example array [-3, 2, 1]. -/
theorem c10_absMax_witness :
    ([(-3 : ℚ), 2, 1] ≠ []) ∧
    ∃ q : ℚ, absMax [(-3 : ℚ), 2, 1] = num q ∧
      (∀ v ∈ [(-3 : ℚ), 2, 1], |v| ≤ q) ∧ ∃ v ∈ [(-3 : ℚ), 2, 1], |v| = q :=
  ⟨by simp, c10_absMax_correct [(-3 : ℚ), 2, 1] (by simp)⟩
